import Mathlib

/-
Formal model of the logging backend of the rl-attack repository
(src/rlattack/logger.py), as a shallow embedding in Lean 4.

Python dictionaries are modelled as insertion-ordered association lists
over String keys; Python numbers are modelled as Int (int) and Rat
(float); a numpy tensor-like scalar (a value exposing a dtype attribute)
is modelled by the vtensor constructor wrapping its numeric payload.
Sinks (OutputFormat instances) are modelled by their kind plus an
explicit write semantics; an exception raised by Python code is modelled
by the Except monad, whose error value carries the exception message.
-/

namespace RLAttack

/- Severity levels, logger.py lines 27-32. -/

def DEBUG : Nat := 10
def INFO : Nat := 20
def WARN : Nat := 30
def ERROR : Nat := 40
def DISABLED : Nat := 50

/- logger.py line 25. -/

def LOG_OUTPUT_FORMATS : List String := ["stdout", "log", "json"]

/-- Scalar values storable in the logger buffer: Python int, float, str,
and a numpy tensor-like scalar (a value with a dtype attribute) whose
numeric payload is the wrapped rational. -/
inductive PyVal where
  | vint : Int → PyVal
  | vfloat : Rat → PyVal
  | vstr : String → PyVal
  | vtensor : Rat → PyVal
deriving DecidableEq

/-- The per-iteration key/value buffer (Logger.name2val): a Python dict,
modelled as an insertion-ordered association list. -/
abbrev KVBuffer := List (String × PyVal)

/-- Python dict write d[k] = v: replace the value of the (unique)
existing entry for k in place, keeping its position, otherwise append
the new entry at the end (insertion order). -/
def pyDictInsert {α : Type} (k : String) (v : α) : List (String × α) → List (String × α)
  | [] => [(k, v)]
  | p :: rest => if p.1 = k then (k, v) :: rest else p :: pyDictInsert k v rest

/-- Python dict read d[k] (first entry with key k, as an Option). -/
def pyDictGet {α : Type} (k : String) : List (String × α) → Option α
  | [] => none
  | p :: rest => if p.1 = k then some p.2 else pyDictGet k rest

/-- Lexicographic code-point comparison of character lists: the order
Python uses on str. -/
def charsLe : List Char → List Char → Bool
  | [], _ => true
  | _ :: _, [] => false
  | a :: as, b :: bs =>
    if a < b then true
    else if b < a then false
    else charsLe as bs

/-- Python string comparison a <= b. -/
def strLe (a b : String) : Bool :=
  charsLe a.toList b.toList

/-- Insert one pair into an already sorted association list, comparing
keys with the lexicographic String order (Python compares tuples, whose
first components, the dict keys, are distinct in a dict). -/
def insortKV {α : Type} (p : String × α) : List (String × α) → List (String × α)
  | [] => [p]
  | q :: rest => if strLe p.1 q.1 then p :: q :: rest else q :: insortKV p rest

/-- Python sorted(kvs.items()): sort the entries by key, ascending. -/
def pySort {α : Type} (l : List (String × α)) : List (String × α) :=
  l.foldr insortKV []

/- The four concrete OutputFormat subclasses, identified by the format
names accepted by make_output_format (logger.py lines 180-193). -/

inductive SinkKind where
  | stdoutSink
  | logSink
  | jsonSink
  | tbSink
deriving DecidableEq

/-- Logger state (logger.py lines 274-278): the buffer of the current
iteration, the severity threshold, the directory and the ordered sink
list. -/
structure Logger where
  name2val : KVBuffer
  level : Nat
  dir : Option String
  output_formats : List SinkKind
deriving DecidableEq

/-- Logger.__init__ (lines 274-278): empty buffer, level INFO. -/
def Logger.init (dir : Option String) (output_formats : List SinkKind) : Logger :=
  { name2val := [], level := INFO, dir := dir, output_formats := output_formats }

/-- Logger.logkv (lines 282-283): self.name2val[key] = val. -/
def Logger.logkv (lg : Logger) (key : String) (v : PyVal) : Logger :=
  { lg with name2val := pyDictInsert key v lg.name2val }

/-- Logger.log (lines 291-293): if self.level <= level, forward the
args to writeseq of every sink; the result is the trace of writeseq
calls (which sink received which args). -/
def Logger.log (lg : Logger) (args : List String) (level : Nat) : List (SinkKind × List String) :=
  if lg.level ≤ level then lg.output_formats.map (fun f => (f, args)) else []

/-- Logger.set_level (lines 297-298). -/
def Logger.set_level (lg : Logger) (level : Nat) : Logger :=
  { lg with level := level }

/-- Run a sequence of logkv calls against a logger. -/
def applyLogs (lg : Logger) (calls : List (String × PyVal)) : Logger :=
  calls.foldl (fun l p => l.logkv p.1 p.2) lg

/-- The value of the last call in the sequence that wrote key k. -/
def lastVal (calls : List (String × PyVal)) (k : String) : Option PyVal :=
  calls.foldl (fun acc p => if p.1 = k then some p.2 else acc) none

/-- Semantics of writekvs for each sink: given the buffer (passed by
reference), a write either returns normally, leaving the dict in a
possibly mutated state (the JSON sink mutates it), or raises, modelled
by an error message. -/
abbrev SinkImpl := SinkKind → KVBuffer → Except String KVBuffer

/-- The fan-out loop of Logger.dumpkvs (lines 287-288): invoke writekvs
on each sink in list order, threading the (shared, possibly mutated)
dict; a raise aborts the loop. Returns the trace of invocations (which
sink was called with which dict state), the dict state after the loop,
and the escaped exception if any. -/
def fanout (impl : SinkImpl) : List SinkKind → KVBuffer → List (SinkKind × KVBuffer) × KVBuffer × Option String
  | [], buf => ([], buf, none)
  | f :: rest, buf =>
    match impl f buf with
    | .error e => ([(f, buf)], buf, some e)
    | .ok buf2 =>
      let r := fanout impl rest buf2
      ((f, buf) :: r.1, r.2)

/-- Logger.dumpkvs (lines 285-289): skip everything when level is
DISABLED; otherwise call writekvs on every sink in order and, if no
exception escaped, clear the buffer (self.name2val.clear() is the last
statement, so a raising sink skips it). Returns the new logger state,
the trace of sink invocations and the escaped exception if any. -/
def Logger.dumpkvs (impl : SinkImpl) (lg : Logger) : Logger × List (SinkKind × KVBuffer) × Option String :=
  if lg.level = DISABLED then (lg, [], none)
  else
    match fanout impl lg.output_formats lg.name2val with
    | (tr, _, none) => ({ lg with name2val := [] }, tr, none)
    | (tr, bufF, some e) => ({ lg with name2val := bufF }, tr, some e)

/-- make_output_format (logger.py lines 180-193): dispatch on the
format name, raising ValueError for any unknown name (the directory
creation and file opening side effects are not part of the modelled
state). -/
def make_output_format (format : String) : Except String SinkKind :=
  if format = "stdout" then .ok .stdoutSink
  else if format = "log" then .ok .logSink
  else if format = "json" then .ok .jsonSink
  else if format = "tensorboard" then .ok .tbSink
  else .error ("Unknown format specified: " ++ format)

/-- The list comprehension of configure (line 326): build one sink per
format name, left to right; the first raising make_output_format call
aborts the whole comprehension. -/
def mapFormats : List String → Except String (List SinkKind)
  | [] => .ok []
  | f :: rest => do
    let s ← make_output_format f
    let out ← mapFormats rest
    return s :: out

/-- The module-level singleton state (Logger.DEFAULT / Logger.CURRENT,
line 313): defaultSt is the state of the DEFAULT Logger object;
currentNonDefault is some lg exactly when CURRENT points at a distinct
Logger object (one installed by configure), and none when CURRENT is
the DEFAULT object itself, so that object identity of CURRENT and
DEFAULT is the shape of the Option. -/
structure Ctx where
  defaultSt : Logger
  currentNonDefault : Option Logger
deriving DecidableEq

/-- The Logger object CURRENT points at. -/
def Ctx.current (ctx : Ctx) : Logger :=
  ctx.currentNonDefault.getD ctx.defaultSt

/-- Line 313: Logger.DEFAULT = Logger.CURRENT = Logger(dir=None,
output_formats=[HumanOutputFormat(sys.stdout)]). -/
def initialCtx : Ctx :=
  { defaultSt := Logger.init none [SinkKind.stdoutSink], currentNonDefault := none }

/-- Free function logkv (lines 199-204): Logger.CURRENT.logkv(key, val),
mutating whichever object CURRENT points at. -/
def Ctx.logkv (ctx : Ctx) (k : String) (v : PyVal) : Ctx :=
  match ctx.currentNonDefault with
  | some lg => { ctx with currentNonDefault := some (lg.logkv k v) }
  | none => { ctx with defaultSt := ctx.defaultSt.logkv k v }

/-- Free function getkvs (lines 222-223): Logger.CURRENT.name2val. -/
def Ctx.getkvs (ctx : Ctx) : KVBuffer :=
  (Ctx.current ctx).name2val

/-- The message of the assert in configure (lines 316-317); the
original text uses a contraction, rendered here without it. -/
def assertMsg : String :=
  "Only call logger.configure() when in the default state. Try calling logger.reset() first."

/-- configure (lines 315-328): assert CURRENT is DEFAULT (raising
AssertionError otherwise), build the sinks from the format names
(defaulting to LOG_OUTPUT_FORMATS), then install a fresh Logger as
CURRENT. The directory argument is taken as already resolved (the env
var and tempfile fallbacks of lines 319-323 are process I/O). The
result pairs the context state after the call with the escaped
exception message if any; the CURRENT assignment is the last mutation,
so a raising step leaves the context unchanged. The trailing
log(...) call of line 328 writes to the new sinks and touches no
modelled state. -/
def Ctx.configure (ctx : Ctx) (dir : String) (format_strs : Option (List String)) : Ctx × Option String :=
  match ctx.currentNonDefault with
  | some _ => (ctx, some assertMsg)
  | none =>
    match mapFormats (format_strs.getD LOG_OUTPUT_FORMATS) with
    | .error e => (ctx, some e)
    | .ok out => ({ ctx with currentNonDefault := some (Logger.init (some dir) out) }, none)

/-- reset (lines 336-338): Logger.CURRENT = Logger.DEFAULT (the
trailing log call touches no modelled state). -/
def Ctx.reset (ctx : Ctx) : Ctx :=
  { ctx with currentNonDefault := none }

/-- HumanOutputFormat._truncate (lines 113-114): keep the first 20
characters followed by an ellipsis when the string is longer than 23
characters. -/
def truncateDisplay (s : String) : String :=
  if s.length > 23 then s.take 20 ++ "..." else s

/-- Python max over a list of naturals: raises ValueError on an empty
sequence. -/
def pyMax (l : List Nat) : Except String Nat :=
  match l with
  | [] => .error "max() arg is an empty sequence"
  | x :: xs => .ok (xs.foldl max x)

/-- A run of n spaces (padding in the table rows). -/
def padSpaces (n : Nat) : String :=
  String.mk (List.replicate n ' ')

/-- A run of n dashes (the separator lines of the table). -/
def dashLine (n : Nat) : String :=
  String.mk (List.replicate n '-')

/-- HumanOutputFormat.writekvs (lines 75-110), parametrized by the
per-value stringification valstr standing for the Python expression
"%-8.3g" % val for floats and str(val) otherwise (the exact text of
that rendering is floating-point display and is irrelevant to every
property stated here). The body builds key2str by inserting the
truncated key/value strings in sorted key order, takes the two maximal
display widths with Python max (which raises on an empty dict), and
renders the boxed table followed by a newline. -/
def humanWritekvs (valstr : PyVal → String) (kvs : KVBuffer) : Except String String := do
  let key2str : List (String × String) :=
    (pySort kvs).foldl
      (fun d p => pyDictInsert (truncateDisplay p.1) (truncateDisplay (valstr p.2)) d) []
  let keywidth ← pyMax (key2str.map (fun p => p.1.length))
  let valwidth ← pyMax (key2str.map (fun p => p.2.length))
  let dashes := dashLine (keywidth + valwidth + 7)
  let rows := (pySort key2str).map (fun p =>
    "| " ++ p.1 ++ padSpaces (keywidth - p.1.length) ++ " | "
      ++ p.2 ++ padSpaces (valwidth - p.2.length) ++ " |")
  return String.intercalate "\n" ([dashes] ++ rows ++ [dashes]) ++ "\n"

/-- JSON string escaping used by json.dumps for the characters that can
occur in the keys and values of this development (quote, backslash and
the common control characters; the \x5cu escaping of other code points
is not modelled). -/
def jsonEscapeChar (c : Char) : String :=
  if c = '"' then "\\\""
  else if c = '\\' then "\\\\"
  else if c = '\n' then "\\n"
  else if c = '\t' then "\\t"
  else if c = '\r' then "\\r"
  else String.singleton c

def jsonEscape (s : String) : String :=
  String.join (s.toList.map jsonEscapeChar)

/-- Decimal-style rendering of the rational payload of a float (the
exact Python float repr is not reproduced; no stated property depends
on this text). -/
def ratRepr (x : Rat) : String :=
  if x.den = 1 then toString x.num else toString x.num ++ "/" ++ toString x.den

/-- json.dumps on a single value: serializes int, float and str;
raises TypeError on a raw tensor-like value (which json does not know
how to serialize). -/
def jsonDumpVal : PyVal → Except String String
  | .vint n => .ok (toString n)
  | .vfloat x => .ok (ratRepr x)
  | .vstr s => .ok ("\"" ++ jsonEscape s ++ "\"")
  | .vtensor _ => .error "TypeError: value with dtype is not JSON serializable"

/-- The entries of json.dumps(kvs), serialized in dict insertion order
(json.dumps without sort_keys preserves the dict order). -/
def jsonItems : KVBuffer → Except String (List String)
  | [] => .ok []
  | p :: rest => do
    let vs ← jsonDumpVal p.2
    let others ← jsonItems rest
    return ("\"" ++ jsonEscape p.1 ++ "\": " ++ vs) :: others

/-- json.dumps(kvs): one object literal in dict insertion order. -/
def jsonDumps (kvs : KVBuffer) : Except String String :=
  (jsonItems kvs).map (fun parts => "\x7b" ++ String.intercalate ", " parts ++ "\x7d")

/-- One iteration of the conversion loop of JSONOutputFormat.writekvs
(lines 127-133): if the value has a dtype attribute, kvs[k] =
float(v.tolist()); the dict is updated in place. -/
def dtypeUpdate (d : KVBuffer) (p : String × PyVal) : KVBuffer :=
  match p.2 with
  | .vtensor x => pyDictInsert p.1 (.vfloat x) d
  | _ => d

/-- The whole conversion loop: iterate over the snapshot
sorted(kvs.items()) taken at loop entry, mutating kvs. -/
def jsonConvertLoop (kvs : KVBuffer) : KVBuffer :=
  (pySort kvs).foldl dtypeUpdate kvs

/-- Pointwise description of the conversion: a tensor-like value is
replaced by the plain float holding its payload. -/
def convVal : PyVal → PyVal
  | .vtensor x => .vfloat x
  | v => v

/-- Entry-wise conversion: same key, converted value. -/
def convEntry (p : String × PyVal) : String × PyVal :=
  (p.1, convVal p.2)

/-- JSONOutputFormat.writekvs (lines 126-136): run the conversion loop
on the caller-owned dict, then write json.dumps of it followed by one
newline. Returns the dict as the caller sees it after the call and the
emitted text (or the escaped exception). -/
def jsonWritekvs (kvs : KVBuffer) : KVBuffer × Except String String :=
  let kvs2 := jsonConvertLoop kvs
  (kvs2, (jsonDumps kvs2).map (fun s => s ++ "\n"))

/-- Behavior claimed by the specification for the JSON sink, stated
from the words of the spec for comparison with jsonWritekvs: the
record serializes the mapping with keys sorted lexicographically
ascending (values converted first). -/
def jsonWritekvsSortedSpec (kvs : KVBuffer) : Except String String :=
  (jsonDumps (pySort (kvs.map convEntry))).map (fun s => s ++ "\n")

/- Basic dictionary lemmas. -/

theorem pyDictGet_insert_self {α : Type} (d : List (String × α)) (k : String) (v : α) :
    pyDictGet k (pyDictInsert k v d) = some v := by
  induction d with
  | nil => simp [pyDictInsert, pyDictGet]
  | cons p rest ih =>
    by_cases h : p.1 = k
    · simp [pyDictInsert, pyDictGet, h]
    · simp [pyDictInsert, pyDictGet, h, ih]

theorem pyDictGet_insert_other {α : Type} (d : List (String × α)) {k k2 : String} (v : α)
    (hne : k ≠ k2) : pyDictGet k2 (pyDictInsert k v d) = pyDictGet k2 d := by
  induction d with
  | nil => simp [pyDictInsert, pyDictGet, hne]
  | cons p rest ih =>
    by_cases h : p.1 = k
    · simp [pyDictInsert, pyDictGet, h, hne]
    · simp [pyDictInsert, pyDictGet, h, ih]

theorem pyDictGet_insert {α : Type} (d : List (String × α)) (k k2 : String) (v : α) :
    pyDictGet k2 (pyDictInsert k v d) = if k = k2 then some v else pyDictGet k2 d := by
  by_cases h : k = k2
  · subst h; simp [pyDictGet_insert_self]
  · simp [h, pyDictGet_insert_other d v h]

theorem pyDictInsert_ne_nil {α : Type} (d : List (String × α)) (k : String) (v : α) :
    pyDictInsert k v d ≠ [] := by
  cases d with
  | nil => simp [pyDictInsert]
  | cons p rest =>
    by_cases h : p.1 = k <;> simp [pyDictInsert, h]

theorem mem_insortKV {α : Type} (p q : String × α) (l : List (String × α)) :
    q ∈ insortKV p l ↔ q = p ∨ q ∈ l := by
  induction l with
  | nil => simp [insortKV]
  | cons r rest ih =>
    by_cases h : strLe p.1 r.1
    · simp [insortKV, h]
      try tauto
    · simp [insortKV, h, ih]
      try tauto

theorem mem_pySort {α : Type} (q : String × α) (l : List (String × α)) :
    q ∈ pySort l ↔ q ∈ l := by
  induction l with
  | nil => simp [pySort]
  | cons p rest ih =>
    simp only [pySort, List.foldr_cons] at *
    rw [mem_insortKV, ih]
    simp

theorem insortKV_ne_nil {α : Type} (p : String × α) (l : List (String × α)) :
    insortKV p l ≠ [] := by
  cases l with
  | nil => simp [insortKV]
  | cons q rest => by_cases h : strLe p.1 q.1 <;> simp [insortKV, h]

theorem pySort_ne_nil {α : Type} (p : String × α) (l : List (String × α)) :
    pySort (p :: l) ≠ [] := by
  simp only [pySort, List.foldr_cons]
  exact insortKV_ne_nil p _

/- Fan-out lemmas for dumpkvs. -/

theorem fanout_pure (impl : SinkImpl) (fs : List SinkKind) (buf : KVBuffer)
    (h : ∀ f ∈ fs, ∀ b, impl f b = .ok b) :
    fanout impl fs buf = (fs.map (fun f => (f, buf)), buf, none) := by
  induction fs with
  | nil => simp [fanout]
  | cons f rest ih =>
    have hf : impl f buf = .ok buf := h f (by simp) buf
    have hrest : ∀ g ∈ rest, ∀ b, impl g b = .ok b :=
      fun g hg b => h g (by simp [hg]) b
    simp [fanout, hf, ih hrest]

theorem dumpkvs_pure (impl : SinkImpl) (lg : Logger)
    (hlvl : lg.level ≠ DISABLED)
    (h : ∀ f ∈ lg.output_formats, ∀ b, impl f b = .ok b) :
    Logger.dumpkvs impl lg =
      ({ lg with name2val := [] },
        lg.output_formats.map (fun f => (f, lg.name2val)), none) := by
  unfold Logger.dumpkvs
  rw [if_neg hlvl, fanout_pure impl lg.output_formats lg.name2val h]

theorem fanout_succeeds (impl : SinkImpl) (fs : List SinkKind) (buf : KVBuffer)
    (h : ∀ f ∈ fs, ∀ b, ∃ b2, impl f b = .ok b2) :
    (fanout impl fs buf).2.2 = none ∧
    (fanout impl fs buf).1.map Prod.fst = fs ∧
    (fanout impl fs buf).1.head? = fs.head?.map (fun f => (f, buf)) := by
  induction fs generalizing buf with
  | nil => simp [fanout]
  | cons f rest ih =>
    obtain ⟨b2, hb⟩ := h f (by simp) buf
    have hrest : ∀ g ∈ rest, ∀ b, ∃ b3, impl g b = .ok b3 :=
      fun g hg b => h g (by simp [hg]) b
    obtain ⟨h1, h2, _⟩ := ih b2 hrest
    simp [fanout, hb, h1, h2]

theorem fanout_error_after_pure (impl : SinkImpl) (pre post : List SinkKind)
    (f : SinkKind) (buf : KVBuffer) (e : String)
    (hpre : ∀ g ∈ pre, ∀ b, impl g b = .ok b)
    (hf : impl f buf = .error e) :
    fanout impl (pre ++ f :: post) buf =
      (pre.map (fun g => (g, buf)) ++ [(f, buf)], buf, some e) := by
  induction pre with
  | nil => simp [fanout, hf]
  | cons g rest ih =>
    have hg : impl g buf = .ok buf := hpre g (by simp) buf
    have hrest : ∀ g2 ∈ rest, ∀ b, impl g2 b = .ok b :=
      fun g2 hg2 b => hpre g2 (by simp [hg2]) b
    simp [fanout, hg, ih hrest]

/-- C1: when the severity threshold is not DISABLED, dumpkvs calls
writekvs with the full current buffer on every sink in list order (for
sinks that return normally without mutating the shared dict the trace
is exactly one write of the buffer per sink, in order, and this also
covers the empty sink list, where only the clear happens) and then
clears the buffer; for sinks that merely return normally the sink
order, the first write receiving the full buffer, the clearing and the
absence of an escaped exception still hold; when the threshold is
DISABLED, dumpkvs performs no sink writes and leaves the logger, and
in particular its buffer, unchanged. -/
theorem dumpkvs_fanout_and_clear (impl : SinkImpl) (lg : Logger) :
    (lg.level = DISABLED → Logger.dumpkvs impl lg = (lg, [], none)) ∧
    (lg.level ≠ DISABLED → (∀ f ∈ lg.output_formats, ∀ b, impl f b = .ok b) →
      Logger.dumpkvs impl lg =
        ({ lg with name2val := [] },
          lg.output_formats.map (fun f => (f, lg.name2val)), none)) ∧
    (lg.level ≠ DISABLED → (∀ f ∈ lg.output_formats, ∀ b, ∃ b2, impl f b = .ok b2) →
      (Logger.dumpkvs impl lg).1.name2val = [] ∧
      (Logger.dumpkvs impl lg).2.2 = none ∧
      (Logger.dumpkvs impl lg).2.1.map Prod.fst = lg.output_formats ∧
      (Logger.dumpkvs impl lg).2.1.head? =
        lg.output_formats.head?.map (fun f => (f, lg.name2val))) := by
  refine ⟨fun h => ?_, fun hlvl h => dumpkvs_pure impl lg hlvl h, fun hlvl h => ?_⟩
  · simp [Logger.dumpkvs, h]
  · obtain ⟨h1, h2, h3⟩ := fanout_succeeds impl lg.output_formats lg.name2val h
    rcases hfan : fanout impl lg.output_formats lg.name2val with ⟨tr, bufF, exc⟩
    rw [hfan] at h1 h2 h3
    simp only at h1
    subst h1
    simp [Logger.dumpkvs, hlvl, hfan, h2, h3]

def pureStdoutImpl : SinkImpl := fun _ b => .ok b

def wLgDisabled : Logger :=
  { name2val := [("a", PyVal.vint 3)], level := DISABLED, dir := none,
    output_formats := [SinkKind.stdoutSink] }

def wLgInfo : Logger :=
  { name2val := [("a", PyVal.vint 3)], level := INFO, dir := none,
    output_formats := [SinkKind.stdoutSink, SinkKind.jsonSink] }

/-- Witness for C1 at concrete inputs: a DISABLED logger is left
untouched with no writes, and an INFO logger with two sinks writes the
full buffer to both in order and ends cleared. -/
theorem dumpkvs_fanout_and_clear_witness :
    Logger.dumpkvs pureStdoutImpl wLgDisabled = (wLgDisabled, [], none) ∧
    Logger.dumpkvs pureStdoutImpl wLgInfo =
      ({ wLgInfo with name2val := [] },
        [(SinkKind.stdoutSink, [("a", PyVal.vint 3)]),
         (SinkKind.jsonSink, [("a", PyVal.vint 3)])], none) := by
  refine ⟨(dumpkvs_fanout_and_clear pureStdoutImpl wLgDisabled).1 rfl, ?_⟩
  exact (dumpkvs_fanout_and_clear pureStdoutImpl wLgInfo).2.1 (by decide) (fun f _ b => rfl)

def errImpl : SinkImpl := fun _ _ => .error "IOError: write failed"

def cexLogger : Logger :=
  { name2val := [("a", PyVal.vint 1)], level := INFO, dir := none,
    output_formats := [SinkKind.stdoutSink] }

/-- Counterexample to C2: with a non-DISABLED logger whose only sink
raises, the buffer is NOT cleared by the end of dumpkvs (the exception
escapes before self.name2val.clear() runs), contradicting the claim
that the clear happens regardless of sink errors. -/
theorem dumpkvs_error_not_cleared_cex :
    (Logger.dumpkvs errImpl cexLogger).2.2 = some "IOError: write failed" ∧
    (Logger.dumpkvs errImpl cexLogger).1.name2val = [("a", PyVal.vint 1)] ∧
    (Logger.dumpkvs errImpl cexLogger).1.name2val ≠ [] := by
  decide

/-- C2 (amended): when the threshold is not DISABLED and some sink
raises during the fan-out, the exception escapes dumpkvs, the clear is
skipped — the logger, and in particular its buffer, is left unchanged
(the sinks before the failing one having written without mutating it) —
and the sinks after the failing one receive no write. -/
theorem dumpkvs_error_skips_clear (impl : SinkImpl) (lg : Logger)
    (pre post : List SinkKind) (f : SinkKind) (e : String)
    (hlvl : lg.level ≠ DISABLED)
    (hfs : lg.output_formats = pre ++ f :: post)
    (hpre : ∀ g ∈ pre, ∀ b, impl g b = .ok b)
    (hf : impl f lg.name2val = .error e) :
    Logger.dumpkvs impl lg =
      (lg, pre.map (fun g => (g, lg.name2val)) ++ [(f, lg.name2val)], some e) := by
  have hfan : fanout impl lg.output_formats lg.name2val =
      (pre.map (fun g => (g, lg.name2val)) ++ [(f, lg.name2val)], lg.name2val, some e) := by
    rw [hfs]
    exact fanout_error_after_pure impl pre post f lg.name2val e hpre hf
  unfold Logger.dumpkvs
  rw [if_neg hlvl, hfan]

/-- Witness for C2 (amended): a single raising sink aborts the dump,
the exception escapes, and the buffer keeps its entry. -/
theorem dumpkvs_error_skips_clear_witness :
    Logger.dumpkvs errImpl cexLogger =
      (cexLogger, [(SinkKind.stdoutSink, [("a", PyVal.vint 1)])],
        some "IOError: write failed") :=
  dumpkvs_error_skips_clear errImpl cexLogger [] [] SinkKind.stdoutSink
    "IOError: write failed" (by decide) rfl (by simp) rfl

/- Last-write-wins lemmas. -/

theorem foldl_lastVal_acc (k : String) (calls : List (String × PyVal)) (a0 : Option PyVal) :
    calls.foldl (fun acc p => if p.1 = k then some p.2 else acc) a0 =
      (match lastVal calls k with
       | some v => some v
       | none => a0) := by
  induction calls generalizing a0 with
  | nil => simp [lastVal]
  | cons p rest ih =>
    simp only [List.foldl_cons]
    rw [ih]
    have hl : lastVal (p :: rest) k =
        (match lastVal rest k with
         | some v => some v
         | none => if p.1 = k then some p.2 else none) := by
      simp only [lastVal, List.foldl_cons]
      rw [ih]
      rfl
    rw [hl]
    cases lastVal rest k <;> by_cases hp : p.1 = k <;> simp [hp]

theorem lastVal_cons (k : String) (p : String × PyVal) (rest : List (String × PyVal)) :
    lastVal (p :: rest) k =
      (match lastVal rest k with
       | some v => some v
       | none => if p.1 = k then some p.2 else none) := by
  simp only [lastVal, List.foldl_cons]
  rw [foldl_lastVal_acc]
  rfl

theorem pyDictGet_foldl_insert (k : String) (calls : List (String × PyVal)) (d : KVBuffer) :
    pyDictGet k (calls.foldl (fun b p => pyDictInsert p.1 p.2 b) d) =
      (match lastVal calls k with
       | some v => some v
       | none => pyDictGet k d) := by
  induction calls generalizing d with
  | nil => simp [lastVal]
  | cons p rest ih =>
    simp only [List.foldl_cons]
    rw [ih (pyDictInsert p.1 p.2 d)]
    rw [lastVal_cons, pyDictGet_insert]
    cases lastVal rest k <;> by_cases hp : p.1 = k <;> simp [hp]

theorem applyLogs_fields (lg : Logger) (calls : List (String × PyVal)) :
    (applyLogs lg calls).level = lg.level ∧
    (applyLogs lg calls).output_formats = lg.output_formats ∧
    (applyLogs lg calls).name2val =
      calls.foldl (fun b p => pyDictInsert p.1 p.2 b) lg.name2val := by
  induction calls generalizing lg with
  | nil => simp [applyLogs]
  | cons p rest ih =>
    simp only [applyLogs, List.foldl_cons] at *
    exact ih (lg.logkv p.1 p.2)

/-- C4: starting from an empty buffer (the state after a dump), a
sequence of logkv calls leaves, for each key, exactly the value of the
last call that wrote that key (and nothing for keys never written), and
the next dumpkvs passes exactly that buffer to every sink. -/
theorem logkv_last_write_wins (impl : SinkImpl) (lg : Logger)
    (calls : List (String × PyVal)) (k : String)
    (h0 : lg.name2val = []) (hlvl : lg.level ≠ DISABLED)
    (hpure : ∀ f ∈ lg.output_formats, ∀ b, impl f b = .ok b) :
    pyDictGet k (applyLogs lg calls).name2val = lastVal calls k ∧
    (Logger.dumpkvs impl (applyLogs lg calls)).2.1 =
      lg.output_formats.map (fun f => (f, (applyLogs lg calls).name2val)) := by
  obtain ⟨hlev, hfmt, hbuf⟩ := applyLogs_fields lg calls
  constructor
  · rw [hbuf, h0, pyDictGet_foldl_insert]
    cases lastVal calls k <;> simp [pyDictGet]
  · have hd := dumpkvs_pure impl (applyLogs lg calls)
      (by rw [hlev]; exact hlvl) (by rw [hfmt]; exact hpure)
    rw [hd, hfmt]

/-- Witness for C4: two writes to key a and one to key b leave a = 2
and b = x in the dumped buffer. -/
theorem logkv_last_write_wins_witness :
    pyDictGet "a" (applyLogs (Logger.init none [SinkKind.stdoutSink])
      [("a", PyVal.vint 1), ("a", PyVal.vint 2), ("b", PyVal.vstr "x")]).name2val =
      some (PyVal.vint 2) ∧
    (Logger.dumpkvs pureStdoutImpl (applyLogs (Logger.init none [SinkKind.stdoutSink])
      [("a", PyVal.vint 1), ("a", PyVal.vint 2), ("b", PyVal.vstr "x")])).2.1 =
      [(SinkKind.stdoutSink, [("a", PyVal.vint 2), ("b", PyVal.vstr "x")])] := by
  have h := logkv_last_write_wins pureStdoutImpl (Logger.init none [SinkKind.stdoutSink])
    [("a", PyVal.vint 1), ("a", PyVal.vint 2), ("b", PyVal.vstr "x")] "a"
    rfl (by decide) (fun f _ b => rfl)
  exact ⟨h.1, h.2⟩

/- Lifecycle lemmas and theorems. -/

/-- Counterexample to C3: from the initial context, one logkv call on
the (still current) default logger leaves CURRENT pointing at the
default instance but with a touched, nonempty buffer; configure then
SUCCEEDS, although the claim says configure fails whenever the current
Logger is not the untouched default instance — the assert checks only
object identity, not untouchedness. -/
theorem configure_touched_default_cex :
    (Ctx.logkv initialCtx "a" (PyVal.vint 1)).currentNonDefault = none ∧
    Ctx.getkvs (Ctx.logkv initialCtx "a" (PyVal.vint 1)) = [("a", PyVal.vint 1)] ∧
    (Ctx.configure (Ctx.logkv initialCtx "a" (PyVal.vint 1)) "/tmp/run" none).2 = none := by
  decide

/-- C3 (amended): configure fails with the assertion error exactly when
CURRENT is not identically the DEFAULT instance (whether the default
has been touched is not checked); hence a second configure right after
a successful one fails with the assertion error and leaves the context
unchanged, and after reset reinstalls the default as current a
subsequent configure (with the default format list) succeeds. -/
theorem configure_identity_guard (ctx ctx2 : Ctx) (dir dir2 dir3 : String)
    (fmts fmts2 : Option (List String)) :
    (ctx.currentNonDefault.isSome = true →
      Ctx.configure ctx dir fmts = (ctx, some assertMsg)) ∧
    (Ctx.configure ctx dir fmts = (ctx2, none) →
      Ctx.configure ctx2 dir2 fmts2 = (ctx2, some assertMsg)) ∧
    (Ctx.configure (Ctx.reset ctx2) dir3 none).2 = none := by
  refine ⟨fun h => ?_, fun h => ?_, ?_⟩
  · rcases hc : ctx.currentNonDefault with _ | lg
    · rw [hc] at h; simp at h
    · simp [Ctx.configure, hc]
  · rcases hc : ctx.currentNonDefault with _ | lg
    · rw [Ctx.configure, hc] at h
      rcases hm : mapFormats (fmts.getD LOG_OUTPUT_FORMATS) with e | out
      · rw [hm] at h; simp at h
      · rw [hm] at h
        simp only [Prod.mk.injEq] at h
        have hcur : ctx2.currentNonDefault = some (Logger.init (some dir) out) := by
          rw [← h.1]
        simp [Ctx.configure, hcur]
    · rw [Ctx.configure, hc] at h
      simp at h
  · have hdf : mapFormats LOG_OUTPUT_FORMATS =
        .ok [SinkKind.stdoutSink, SinkKind.logSink, SinkKind.jsonSink] := rfl
    simp [Ctx.configure, Ctx.reset, hdf]

/-- Witness for C3 (amended): configure, configure again (fails with
the assert message, context unchanged), then reset and configure again
(succeeds). -/
theorem configure_identity_guard_witness :
    Ctx.configure (Ctx.configure initialCtx "/tmp/a" none).1 "/tmp/b" none =
      ((Ctx.configure initialCtx "/tmp/a" none).1, some assertMsg) ∧
    (Ctx.configure (Ctx.reset (Ctx.configure initialCtx "/tmp/a" none).1) "/tmp/c" none).2 =
      none := by
  have hsucc : Ctx.configure initialCtx "/tmp/a" none =
      ((Ctx.configure initialCtx "/tmp/a" none).1, none) := by decide
  have h := configure_identity_guard initialCtx
    (Ctx.configure initialCtx "/tmp/a" none).1 "/tmp/a" "/tmp/b" "/tmp/c" none none
  exact ⟨h.2.1 hsucc, h.2.2⟩

theorem mapFormats_error_of_mem (fmt : String) (l : List String)
    (hmem : fmt ∈ l) (herr : ∃ e0, make_output_format fmt = .error e0) :
    ∃ e, mapFormats l = .error e := by
  induction l with
  | nil => simp at hmem
  | cons g rest ih =>
    obtain ⟨e0, he0⟩ := herr
    rcases List.mem_cons.mp hmem with hg | hrest
    · subst hg
      exact ⟨e0, by simp only [mapFormats, he0]; rfl⟩
    · rcases hg2 : make_output_format g with e2 | s
      · exact ⟨e2, by simp only [mapFormats, hg2]; rfl⟩
      · obtain ⟨e, he⟩ := ih hrest
        exact ⟨e, by simp only [mapFormats, hg2, he]; rfl⟩

/-- C6: make_output_format raises the "Unknown format specified" error
for every name outside the four known ones, and a configure call whose
format list contains such a name fails (either at the identity assert
or at sink construction) and leaves the current context — in particular
the current Logger — unchanged: no partial sink list is installed. -/
theorem unknown_format_rejected (fmt : String)
    (h : fmt ∉ (["stdout", "log", "json", "tensorboard"] : List String)) :
    make_output_format fmt = .error ("Unknown format specified: " ++ fmt) ∧
    ∀ ctx dir fmts, fmt ∈ fmts →
      (Ctx.configure ctx dir (some fmts)).1 = ctx ∧
      ((Ctx.configure ctx dir (some fmts)).2).isSome = true := by
  simp only [List.mem_cons, List.not_mem_nil, or_false, not_or] at h
  obtain ⟨h1, h2, h3, h4⟩ := h
  have hmk : make_output_format fmt = .error ("Unknown format specified: " ++ fmt) := by
    simp [make_output_format, h1, h2, h3, h4]
  refine ⟨hmk, fun ctx dir fmts hmem => ?_⟩
  rcases hc : ctx.currentNonDefault with _ | lg
  · obtain ⟨e, he⟩ := mapFormats_error_of_mem fmt fmts hmem ⟨_, hmk⟩
    simp [Ctx.configure, hc, he]
  · simp [Ctx.configure, hc]

/-- Witness for C6: the name csv is rejected by the factory and by a
configure call listing it, which leaves the initial context as it was. -/
theorem unknown_format_rejected_witness :
    make_output_format "csv" = .error "Unknown format specified: csv" ∧
    (Ctx.configure initialCtx "/tmp/u" (some ["stdout", "csv"])).1 = initialCtx ∧
    ((Ctx.configure initialCtx "/tmp/u" (some ["stdout", "csv"])).2).isSome = true := by
  have h := unknown_format_rejected "csv" (by decide)
  exact ⟨h.1, (h.2 initialCtx "/tmp/u" ["stdout", "csv"] (by decide)).1,
    (h.2 initialCtx "/tmp/u" ["stdout", "csv"] (by decide)).2⟩

/-- C8: a value written through the facade logkv and read back through
getkvs is exactly the value written, with no coercion, for every value
constructor — ints, floats, strings and tensor-like scalars alike (the
float conversion of tensor-like scalars is performed only inside the
JSON sink at serialization time, see the jsonWritekvs theorems). -/
theorem logkv_getkvs_roundtrip (ctx : Ctx) (k : String) (v : PyVal) :
    pyDictGet k (Ctx.getkvs (Ctx.logkv ctx k v)) = some v := by
  rcases hc : ctx.currentNonDefault with _ | lg <;>
    simp [Ctx.logkv, hc, Ctx.getkvs, Ctx.current, Logger.logkv, pyDictGet_insert_self]

/-- C10: every Logger built by Logger.__init__ starts at severity INFO
with an empty buffer; such a logger forwards log calls at INFO, WARN
and ERROR to every sink and suppresses DEBUG; the initial current
logger is exactly such a default logger, and any logger installed by a
successful configure also starts at INFO with an empty buffer. -/
theorem fresh_logger_level_info (d : Option String) (fs : List SinkKind)
    (args : List String) :
    (Logger.init d fs).level = INFO ∧
    (Logger.init d fs).name2val = [] ∧
    Logger.log (Logger.init d fs) args DEBUG = [] ∧
    Logger.log (Logger.init d fs) args INFO = fs.map (fun f => (f, args)) ∧
    Logger.log (Logger.init d fs) args WARN = fs.map (fun f => (f, args)) ∧
    Logger.log (Logger.init d fs) args ERROR = fs.map (fun f => (f, args)) ∧
    Ctx.current initialCtx = Logger.init none [SinkKind.stdoutSink] ∧
    (∀ ctx dir fmts ctx2, Ctx.configure ctx dir fmts = (ctx2, none) →
      (Ctx.current ctx2).level = INFO ∧ (Ctx.current ctx2).name2val = []) := by
  refine ⟨rfl, rfl, ?_, ?_, ?_, ?_, rfl, ?_⟩
  · rw [Logger.log, if_neg]
    exact (by decide : ¬INFO ≤ DEBUG)
  · rw [Logger.log, if_pos]
    · rfl
    · exact (by decide : INFO ≤ INFO)
  · rw [Logger.log, if_pos]
    · rfl
    · exact (by decide : INFO ≤ WARN)
  · rw [Logger.log, if_pos]
    · rfl
    · exact (by decide : INFO ≤ ERROR)
  · intro ctx dir fmts ctx2 h
    rcases hc : ctx.currentNonDefault with _ | lg
    · rw [Ctx.configure, hc] at h
      rcases hm : mapFormats (fmts.getD LOG_OUTPUT_FORMATS) with e | out
      · rw [hm] at h; simp at h
      · rw [hm] at h
        simp only [Prod.mk.injEq] at h
        rw [← h.1]
        simp [Ctx.current, Logger.init]
    · rw [Ctx.configure, hc] at h
      simp at h

/-- Witness for C10: a configure from the initial state installs a
logger at INFO, and a fresh default logger suppresses a DEBUG message. -/
theorem fresh_logger_level_info_witness :
    (Ctx.current (Ctx.configure initialCtx "/tmp/w" none).1).level = INFO ∧
    Logger.log (Logger.init none [SinkKind.stdoutSink]) ["hi"] DEBUG = [] := by
  have h := fresh_logger_level_info none [SinkKind.stdoutSink] ["hi"]
  refine ⟨?_, h.2.2.1⟩
  have hs : Ctx.configure initialCtx "/tmp/w" none =
      ((Ctx.configure initialCtx "/tmp/w" none).1, none) := by decide
  exact (h.2.2.2.2.2.2.2 initialCtx "/tmp/w" none _ hs).1

/- Console sink: empty-batch behavior. -/

theorem foldl_insert_ne_nil {α β : Type} (f : β → String) (g : β → α)
    (items : List β) (d : List (String × α)) (hd : d ≠ []) :
    items.foldl (fun acc q => pyDictInsert (f q) (g q) acc) d ≠ [] := by
  induction items generalizing d with
  | nil => simpa
  | cons q rest ih =>
    simp only [List.foldl_cons]
    exact ih _ (pyDictInsert_ne_nil _ _ _)

theorem humanWritekvs_ok_of_ne_nil (valstr : PyVal → String)
    (p : String × PyVal) (rest : List (String × PyVal)) :
    ∃ s, humanWritekvs valstr (p :: rest) = .ok s := by
  have hk : ((pySort (p :: rest)).foldl
      (fun d q => pyDictInsert (truncateDisplay q.1) (truncateDisplay (valstr q.2)) d)
      ([] : List (String × String))) ≠ [] := by
    obtain ⟨q, rest2, hq⟩ := List.exists_cons_of_ne_nil (pySort_ne_nil p rest)
    rw [hq]
    simp only [List.foldl_cons]
    exact foldl_insert_ne_nil _ _ rest2 _ (pyDictInsert_ne_nil _ _ _)
  obtain ⟨c, cs, hcs⟩ := List.exists_cons_of_ne_nil hk
  simp only [humanWritekvs, hcs, List.map_cons, pyMax]
  exact ⟨_, rfl⟩

/-- C5 (amended): the console/text sink raises on an empty batch —
writekvs applied to an empty mapping fails with the Python max() error
(max over the empty sequence of key widths) instead of skipping the
table — and returns normally exactly on nonempty mappings; this holds
for every choice of the per-value stringification. -/
theorem human_empty_batch_raises (valstr : PyVal → String) (kvs : KVBuffer) :
    (∃ e, humanWritekvs valstr kvs = .error e) ↔ kvs = [] := by
  constructor
  · rintro ⟨e, he⟩
    cases kvs with
    | nil => rfl
    | cons p rest =>
      obtain ⟨s, hs⟩ := humanWritekvs_ok_of_ne_nil valstr p rest
      rw [hs] at he
      exact absurd he (by simp)
  · rintro rfl
    exact ⟨"max() arg is an empty sequence", rfl⟩

/-- Counterexample to C5: called on an empty key/value mapping, the
console sink writekvs does not return without error — it raises the
ValueError of Python max() on an empty sequence (the width computation
runs before any table emptiness check). -/
theorem human_empty_batch_cex :
    humanWritekvs (fun _ => "") [] = .error "max() arg is an empty sequence" := rfl

/-- Witness for C5 (amended): the error case realized on the empty
mapping. -/
theorem human_empty_batch_raises_witness :
    ∃ e, humanWritekvs (fun _ => "x") [] = .error e :=
  (human_empty_batch_raises (fun _ => "x") []).mpr rfl

/- JSON sink lemmas. -/

theorem pyDictGet_eq_none_of_not_mem {α : Type} (d : List (String × α)) (k : String)
    (h : k ∉ d.map Prod.fst) : pyDictGet k d = none := by
  induction d with
  | nil => rfl
  | cons p rest ih =>
    simp only [List.map_cons, List.mem_cons, not_or] at h
    rw [pyDictGet, if_neg (fun hpk => h.1 hpk.symm)]
    exact ih h.2

theorem pyDictInsert_keys_of_mem {α : Type} (d : List (String × α)) (k : String) (v : α)
    (h : k ∈ d.map Prod.fst) :
    (pyDictInsert k v d).map Prod.fst = d.map Prod.fst := by
  induction d with
  | nil => simp at h
  | cons p rest ih =>
    by_cases hp : p.1 = k
    · rw [pyDictInsert, if_pos hp]
      simp [hp]
    · rw [pyDictInsert, if_neg hp]
      simp only [List.map_cons, List.mem_cons] at h
      rcases h with h | h
      · exact absurd h.symm hp
      · simp [ih h]

theorem assoc_ext {α : Type} (l1 : List (String × α)) :
    ∀ l2 : List (String × α),
      l1.map Prod.fst = l2.map Prod.fst →
      (l1.map Prod.fst).Nodup →
      (∀ k, pyDictGet k l1 = pyDictGet k l2) → l1 = l2 := by
  induction l1 with
  | nil =>
    intro l2 hk _ _
    cases l2 with
    | nil => rfl
    | cons q r2 => simp at hk
  | cons p r1 ih =>
    intro l2 hk hnd hget
    cases l2 with
    | nil => simp at hk
    | cons q r2 =>
      simp only [List.map_cons, List.cons.injEq] at hk
      obtain ⟨hk1, hk2⟩ := hk
      simp only [List.map_cons, List.nodup_cons] at hnd
      obtain ⟨hnm, hnd2⟩ := hnd
      have hv := hget p.1
      rw [pyDictGet, if_pos rfl, pyDictGet, if_pos hk1.symm] at hv
      have hv2 : p.2 = q.2 := Option.some.inj hv
      have hget2 : ∀ k2, pyDictGet k2 r1 = pyDictGet k2 r2 := by
        intro k2
        by_cases hkp : k2 = p.1
        · rw [hkp, pyDictGet_eq_none_of_not_mem r1 p.1 hnm,
            pyDictGet_eq_none_of_not_mem r2 p.1 (hk2 ▸ hnm)]
        · have h5 := hget k2
          rwa [pyDictGet, if_neg (fun h => hkp h.symm),
            pyDictGet, if_neg (fun h => hkp (hk1.trans h).symm)] at h5
      have hpq : p = q := by
        cases p
        cases q
        simp only [Prod.mk.injEq]
        exact ⟨hk1, hv2⟩
      rw [hpq, ih r2 hk2 hnd2 hget2]

theorem pyDictGet_map_convEntry (kvs : KVBuffer) (k : String) :
    pyDictGet k (kvs.map convEntry) = (pyDictGet k kvs).map convVal := by
  induction kvs with
  | nil => rfl
  | cons p rest ih =>
    by_cases hp : p.1 = k
    · simp [convEntry, pyDictGet, hp]
    · simp [convEntry, pyDictGet, hp, ih]

theorem map_convEntry_keys (kvs : KVBuffer) :
    (kvs.map convEntry).map Prod.fst = kvs.map Prod.fst := by
  induction kvs with
  | nil => rfl
  | cons p rest ih => simp [convEntry, ih]

theorem pyDictGet_of_mem_nodup (kvs : KVBuffer) (p : String × PyVal)
    (hnd : (kvs.map Prod.fst).Nodup) (hp : p ∈ kvs) :
    pyDictGet p.1 kvs = some p.2 := by
  induction kvs with
  | nil => simp at hp
  | cons q rest ih =>
    simp only [List.map_cons, List.nodup_cons] at hnd
    rcases List.mem_cons.mp hp with he | hr
    · subst he
      rw [pyDictGet, if_pos rfl]
    · have hq : q.1 ≠ p.1 := by
        intro h
        exact hnd.1 (h ▸ List.mem_map_of_mem Prod.fst hr)
      rw [pyDictGet, if_neg hq]
      exact ih hnd.2 hr

theorem mem_of_pyDictGet (kvs : KVBuffer) (k : String) (v : PyVal)
    (h : pyDictGet k kvs = some v) : (k, v) ∈ kvs := by
  induction kvs with
  | nil => simp [pyDictGet] at h
  | cons p rest ih =>
    by_cases hp : p.1 = k
    · rw [pyDictGet, if_pos hp] at h
      have : p = (k, v) := Prod.ext hp (Option.some.inj h)
      simp [← this]
    · rw [pyDictGet, if_neg hp] at h
      simp [ih h]

theorem foldl_dtypeUpdate_keys (kvs : KVBuffer) (items : List (String × PyVal))
    (acc : KVBuffer)
    (hmem : ∀ p ∈ items, p.1 ∈ kvs.map Prod.fst)
    (hacc : acc.map Prod.fst = kvs.map Prod.fst) :
    (items.foldl dtypeUpdate acc).map Prod.fst = kvs.map Prod.fst := by
  induction items generalizing acc with
  | nil => simpa
  | cons p rest ih =>
    simp only [List.foldl_cons]
    cases hp2 : p.2 with
    | vtensor x =>
      apply ih
      · intro q hq; exact hmem q (by simp [hq])
      · simp only [dtypeUpdate, hp2]
        rw [pyDictInsert_keys_of_mem acc p.1 _ (hacc ▸ hmem p (by simp))]
        exact hacc
    | vint n =>
      refine ih _ (fun q hq => hmem q (by simp [hq])) ?_
      simpa only [dtypeUpdate, hp2]
    | vfloat y =>
      refine ih _ (fun q hq => hmem q (by simp [hq])) ?_
      simpa only [dtypeUpdate, hp2]
    | vstr s =>
      refine ih _ (fun q hq => hmem q (by simp [hq])) ?_
      simpa only [dtypeUpdate, hp2]

theorem foldl_dtypeUpdate_get (kvs : KVBuffer) (hnd : (kvs.map Prod.fst).Nodup)
    (items : List (String × PyVal)) :
    ∀ (acc : KVBuffer),
      (∀ p ∈ items, p ∈ kvs) →
      (∀ k, pyDictGet k acc = pyDictGet k kvs ∨
        pyDictGet k acc = (pyDictGet k kvs).map convVal) →
      (∀ k x, pyDictGet k kvs = some (PyVal.vtensor x) →
        pyDictGet k acc = some (PyVal.vfloat x) ∨ (k, PyVal.vtensor x) ∈ items) →
      ∀ k, pyDictGet k (items.foldl dtypeUpdate acc) = (pyDictGet k kvs).map convVal := by
  induction items with
  | nil =>
    intro acc _ hI hT k
    simp only [List.foldl_nil]
    cases hv : pyDictGet k kvs with
    | none => rcases hI k with h | h <;> rw [h, hv] <;> rfl
    | some v =>
      cases v with
      | vtensor x =>
        rcases hT k x hv with h | h
        · exact h
        · exact absurd h (by simp)
      | vint n => rcases hI k with h | h <;> rw [h, hv] <;> rfl
      | vfloat y => rcases hI k with h | h <;> rw [h, hv] <;> rfl
      | vstr s => rcases hI k with h | h <;> rw [h, hv] <;> rfl
  | cons p rest ih =>
    intro acc hm hI hT k
    simp only [List.foldl_cons]
    have hpk : p ∈ kvs := hm p (by simp)
    have hgetp : pyDictGet p.1 kvs = some p.2 := pyDictGet_of_mem_nodup kvs p hnd hpk
    cases hp2 : p.2 with
    | vtensor x =>
      simp only [dtypeUpdate, hp2]
      apply ih
      · intro q hq; exact hm q (by simp [hq])
      · intro k2
        by_cases hk2 : p.1 = k2
        · subst hk2
          right
          rw [pyDictGet_insert_self, hgetp, hp2]
          rfl
        · rw [pyDictGet_insert_other acc _ hk2]
          exact hI k2
      · intro k2 x2 hx2
        by_cases hk2 : p.1 = k2
        · subst hk2
          left
          rw [pyDictGet_insert_self]
          rw [hgetp, hp2] at hx2
          simp only [Option.some.injEq, PyVal.vtensor.injEq] at hx2
          rw [hx2]
        · rcases hT k2 x2 hx2 with h | h
          · left
            rw [pyDictGet_insert_other acc _ hk2]
            exact h
          · rcases List.mem_cons.mp h with he | hr
            · exact absurd (congrArg Prod.fst he).symm hk2
            · right; exact hr
    | vint n =>
      simp only [dtypeUpdate, hp2]
      refine ih acc (fun q hq => hm q (by simp [hq])) hI (fun k2 x2 hx2 => ?_) k
      rcases hT k2 x2 hx2 with h | h
      · exact Or.inl h
      · rcases List.mem_cons.mp h with he | hr
        · rw [← he] at hp2; simp at hp2
        · exact Or.inr hr
    | vfloat y =>
      simp only [dtypeUpdate, hp2]
      refine ih acc (fun q hq => hm q (by simp [hq])) hI (fun k2 x2 hx2 => ?_) k
      rcases hT k2 x2 hx2 with h | h
      · exact Or.inl h
      · rcases List.mem_cons.mp h with he | hr
        · rw [← he] at hp2; simp at hp2
        · exact Or.inr hr
    | vstr s =>
      simp only [dtypeUpdate, hp2]
      refine ih acc (fun q hq => hm q (by simp [hq])) hI (fun k2 x2 hx2 => ?_) k
      rcases hT k2 x2 hx2 with h | h
      · exact Or.inl h
      · rcases List.mem_cons.mp h with he | hr
        · rw [← he] at hp2; simp at hp2
        · exact Or.inr hr

theorem jsonConvertLoop_eq_map (kvs : KVBuffer) (hnd : (kvs.map Prod.fst).Nodup) :
    jsonConvertLoop kvs = kvs.map convEntry := by
  apply assoc_ext
  · rw [map_convEntry_keys]
    exact foldl_dtypeUpdate_keys kvs (pySort kvs) kvs
      (fun p hp => List.mem_map_of_mem Prod.fst ((mem_pySort p kvs).mp hp)) rfl
  · rw [jsonConvertLoop,
      foldl_dtypeUpdate_keys kvs (pySort kvs) kvs
        (fun p hp => List.mem_map_of_mem Prod.fst ((mem_pySort p kvs).mp hp)) rfl]
    exact hnd
  · intro k
    rw [pyDictGet_map_convEntry]
    exact foldl_dtypeUpdate_get kvs hnd (pySort kvs) kvs
      (fun p hp => (mem_pySort p kvs).mp hp)
      (fun _ => Or.inl rfl)
      (fun k2 x hx => Or.inr ((mem_pySort _ kvs).mpr (mem_of_pyDictGet kvs k2 _ hx)))
      k

theorem jsonItems_map_convEntry_ok (kvs : KVBuffer) :
    ∃ parts, jsonItems (kvs.map convEntry) = .ok parts := by
  induction kvs with
  | nil => exact ⟨[], rfl⟩
  | cons p rest ih =>
    obtain ⟨parts, hp⟩ := ih
    have hv : ∃ s, jsonDumpVal (convVal p.2) = .ok s := by
      cases p.2 <;> exact ⟨_, rfl⟩
    obtain ⟨s, hs⟩ := hv
    refine ⟨("\"" ++ jsonEscape p.1 ++ "\": " ++ s) :: parts, ?_⟩
    simp only [List.map_cons, convEntry, jsonItems, hs, hp]
    rfl

/-- C7 (amended): per call the JSON sink emits exactly one record —
json.dumps of the full mapping followed by a single appended newline —
whose entries follow the insertion order of the dict itself (the
lexicographic sort in the source governs only the dtype-conversion
pass, not the emitted order), and in which every value exposing a dtype
attribute has first been converted to a plain floating-point number
(entries and their order are otherwise preserved). -/
theorem json_record_insertion_order (kvs : KVBuffer)
    (hnd : (kvs.map Prod.fst).Nodup) :
    (jsonWritekvs kvs).1 = kvs.map convEntry ∧
    (jsonWritekvs kvs).1.map Prod.fst = kvs.map Prod.fst ∧
    ∃ s, jsonDumps (kvs.map convEntry) = .ok s ∧
      (jsonWritekvs kvs).2 = .ok (s ++ "\n") := by
  have hconv : jsonConvertLoop kvs = kvs.map convEntry := jsonConvertLoop_eq_map kvs hnd
  refine ⟨hconv, ?_, ?_⟩
  · rw [show (jsonWritekvs kvs).1 = jsonConvertLoop kvs from rfl, hconv]
    exact map_convEntry_keys kvs
  · obtain ⟨parts, hp⟩ := jsonItems_map_convEntry_ok kvs
    refine ⟨"\x7b" ++ String.intercalate ", " parts ++ "\x7d", ?_, ?_⟩
    · simp only [jsonDumps, hp]
      rfl
    · show (jsonDumps (jsonConvertLoop kvs)).map (fun s => s ++ "\n") = _
      rw [hconv]
      simp only [jsonDumps, hp]
      rfl

/-- Witness for C7 (amended) on a two-entry dict whose insertion order
is not sorted and whose first value is tensor-like. -/
theorem json_record_insertion_order_witness :
    (jsonWritekvs [("b", PyVal.vtensor 2), ("a", PyVal.vint 1)]).1 =
      [("b", PyVal.vfloat 2), ("a", PyVal.vint 1)] ∧
    (jsonWritekvs [("b", PyVal.vtensor 2), ("a", PyVal.vint 1)]).2 =
      .ok "\x7b\"b\": 2, \"a\": 1\x7d\n" := by
  have h := json_record_insertion_order [("b", PyVal.vtensor 2), ("a", PyVal.vint 1)]
    (by decide)
  obtain ⟨s, hs, h2⟩ := h.2.2
  have hconc : jsonDumps ([("b", PyVal.vtensor 2), ("a", PyVal.vint 1)].map convEntry) =
      .ok "\x7b\"b\": 2, \"a\": 1\x7d" := rfl
  rw [hs] at hconc
  injection hconc with h3
  refine ⟨by rw [h.1]; rfl, ?_⟩
  rw [h2, h3]
  rfl

/-- Counterexample to C7: with insertion order b before a, the emitted
record keeps b first — the keys of the record are not sorted
lexicographically ascending, differing from the record the spec
describes (built here as jsonWritekvsSortedSpec from the spec words). -/
theorem json_record_not_sorted_cex :
    (jsonWritekvs [("b", PyVal.vint 1), ("a", PyVal.vint 2)]).2 =
      .ok "\x7b\"b\": 1, \"a\": 2\x7d\n" ∧
    jsonWritekvsSortedSpec [("b", PyVal.vint 1), ("a", PyVal.vint 2)] =
      .ok "\x7b\"a\": 2, \"b\": 1\x7d\n" ∧
    (jsonWritekvs [("b", PyVal.vint 1), ("a", PyVal.vint 2)]).2 ≠
      jsonWritekvsSortedSpec [("b", PyVal.vint 1), ("a", PyVal.vint 2)] := by
  refine ⟨rfl, rfl, fun h => ?_⟩
  rw [show (jsonWritekvs [("b", PyVal.vint 1), ("a", PyVal.vint 2)]).2 =
      .ok "\x7b\"b\": 1, \"a\": 2\x7d\n" from rfl,
    show jsonWritekvsSortedSpec [("b", PyVal.vint 1), ("a", PyVal.vint 2)] =
      .ok "\x7b\"a\": 2, \"b\": 1\x7d\n" from rfl] at h
  injection h with h2
  exact absurd h2 (by decide)

/-- C9: the JSON sink mutates the mapping passed to it — after
writekvs returns, the caller-visible dict is the entry-wise conversion
of what was passed (every value that exposed a dtype attribute has been
replaced in place by its plain-float conversion), so whenever the
buffer handed over by dumpkvs contains at least one tensor-like value
the buffer is not left unchanged by this sink. -/
theorem json_writekvs_mutates (kvs : KVBuffer) (k : String) (x : Rat)
    (hnd : (kvs.map Prod.fst).Nodup)
    (hx : pyDictGet k kvs = some (PyVal.vtensor x)) :
    (jsonWritekvs kvs).1 = kvs.map convEntry ∧
    pyDictGet k (jsonWritekvs kvs).1 = some (PyVal.vfloat x) ∧
    (jsonWritekvs kvs).1 ≠ kvs := by
  have hconv : (jsonWritekvs kvs).1 = kvs.map convEntry := jsonConvertLoop_eq_map kvs hnd
  refine ⟨hconv, ?_, fun heq => ?_⟩
  · rw [hconv, pyDictGet_map_convEntry, hx]
    rfl
  · have h2 : kvs.map convEntry = kvs := by rw [← hconv]; exact heq
    have h3 : pyDictGet k (kvs.map convEntry) = some (PyVal.vtensor x) := by
      rw [h2]; exact hx
    rw [pyDictGet_map_convEntry, hx] at h3
    simp [convVal] at h3

/-- Witness for C9: a single tensor-like entry is replaced in place by
its float conversion, leaving a dict different from the one passed in. -/
theorem json_writekvs_mutates_witness :
    pyDictGet "t" (jsonWritekvs [("t", PyVal.vtensor 3)]).1 = some (PyVal.vfloat 3) ∧
    (jsonWritekvs [("t", PyVal.vtensor 3)]).1 ≠ [("t", PyVal.vtensor 3)] := by
  have h := json_writekvs_mutates [("t", PyVal.vtensor 3)] "t" 3 (by decide) rfl
  exact ⟨h.2.1, h.2.2⟩

end RLAttack
